import Mathlib

/-!
Shallow embedding of `glutin_x11_sym` (`src/lib.rs`), a small X11 connection
manager.  The crate wraps one native `*mut xlib::Display` per `Display` value,
deduplicates wrappers through a process-wide registry of `Weak<Display>`
(`DISPLAYS`), bridges the global Xlib error callback into a one-slot
`LATEST_ERROR` cell, forwards faults to previously installed handlers
(`OLD_HANDLERS`), and memoizes a default connection (`X11_DISPLAY`).

Modelling conventions:
* a native handle (`*mut xlib::Display`) is a `Nat`; `0` models the null
  pointer;
* an `Arc<Display>` allocation is a `Slot` (the wrapped `Display` plus its
  strong count) stored in a heap `List Slot`; a `Weak<Display>` is the slot's
  index, and upgrading succeeds exactly while the strong count is positive;
* native calls (`XOpenDisplay`, `XSetErrorHandler`'s previous handler,
  `XGetErrorText`) are oracle inputs, since their behaviour lives outside the
  crate; `XCloseDisplay` invocations are recorded in an emitted event list;
* `Result::unwrap()` on a failed capability load (the `lsyms!` macro) is a
  panic, modelled as the `none` / `NewOutcome.panicked` outcome.
-/

/-- Native handle for a display connection (`*mut xlib::Display`); `0` models
the null pointer returned by a failed `XOpenDisplay`. -/
abbrev Handle := Nat

/-- Identifier of a previously installed native error handler (a function
pointer in the source). -/
abbrev HandlerId := Nat

/-- The address of the crate's own `x_error_callback`, used by `Display::new`
to avoid recording the bridge's own callback in `OLD_HANDLERS`. -/
def xErrorCallbackId : HandlerId := 0

/-- The `Display` struct of `src/lib.rs`: a native handle plus the `owned`
flag distinguishing `Display::new` connections from `Display::from_raw`
borrowed wrappers. -/
structure Display where
  display : Handle
  owned : Bool
deriving Repr, DecidableEq

/-- The `impl PartialEq for Display`: equality compares only the `display`
pointer field. -/
def Display.eq (a o : Display) : Bool :=
  a.display == o.display

/-- The accessor `Display::raw`, which returns the native handle (cast to
`*mut c_void` in the source; the cast is the identity here). -/
def Display.raw (d : Display) : Handle :=
  d.display

/-- The `impl Deref for Display`: dereferencing exposes (a reference to) the
`display` field and nothing else. -/
def Display.deref (d : Display) : Handle :=
  d.display

/-- One `Arc<Display>` allocation: the wrapped `Display` plus its strong
reference count.  A `Weak<Display>` upgrade succeeds while `0 < strong`. -/
structure Slot where
  conn : Display
  strong : Nat
deriving Repr, DecidableEq

/-- The integer fields of a native `XErrorEvent` that the callback reads. -/
structure XErrorEvent where
  error_code : Nat
  request_code : Nat
  minor_code : Nat
deriving Repr, DecidableEq

/-- The `XError` payload built by `x_error_callback` (from `winit_types`):
a description string plus the three numeric fields copied from the event. -/
structure XError where
  description : String
  error_code : Nat
  request_code : Nat
  minor_code : Nat
deriving Repr, DecidableEq

/-- The `XNotSupported` variant used by the crate (`XOpenDisplayFailed`). -/
inductive XNotSupported where
  | xOpenDisplayFailed
deriving Repr, DecidableEq

/-- The `OsError` variants constructed by the crate: protocol faults and
not-supported connection failures. -/
inductive OsError where
  | xError (e : XError)
  | xNotSupported (k : XNotSupported)
deriving Repr, DecidableEq

/-- Index of a `Slot` in the heap; a registered `Weak<Display>` is stored as
this index. -/
abbrev ConnId := Nat

/-- The process-wide mutable state of the crate: the heap of `Arc<Display>`
allocations, the `DISPLAYS` registry of weak references, the `OLD_HANDLERS`
chain, and the `LATEST_ERROR` cell. -/
structure St where
  heap : List Slot
  displays : List ConnId
  oldHandlers : List HandlerId
  latestError : Option OsError
deriving Repr, DecidableEq

/-- Upgrade of the weak reference stored at registry entry `i`
(`Weak::upgrade`): yields the wrapped `Display` while the slot's strong count
is positive. -/
def upgrade (s : St) (i : ConnId) : Option Display :=
  match s.heap[i]? with
  | some sl => if 0 < sl.strong then some sl.conn else none
  | none => none

/-- Replace the slot at index `i` of the heap. -/
def setSlot (s : St) (i : ConnId) (sl : Slot) : St :=
  { s with heap := s.heap.set i sl }

/-- The registry scan inside `Display::from_raw`: walk `DISPLAYS` in order,
upgrade each weak reference, and return the first live entry whose `display`
field equals `p`. -/
def findLive (s : St) (p : Handle) : Option ConnId :=
  s.displays.find? fun i =>
    match upgrade s i with
    | some d => d.display == p
    | none => false

/-- The function `Display::from_raw`: if the registry holds a live `Display`
with the given handle, return a clone of that `Arc` (strong count + 1, no new
allocation, no new registry entry); otherwise allocate a fresh borrowed
`Display` with strong count 1 and append a weak reference to the registry. -/
def Display.from_raw (s : St) (p : Handle) : ConnId × St :=
  match findLive s p with
  | some i =>
      match s.heap[i]? with
      | some sl => (i, setSlot s i { sl with strong := sl.strong + 1 })
      | none => (i, s)
  | none =>
      let i := s.heap.length
      (i, { s with
              heap := s.heap ++ [{ conn := { display := p, owned := false }, strong := 1 }],
              displays := s.displays ++ [i] })

/-- The `Display` wrapped by the `Arc` that `Display::from_raw` returns, read
off from the post-state heap. -/
def fromRawConn (s : St) (p : Handle) : Option Display :=
  (((Display.from_raw s p).2).heap[(Display.from_raw s p).1]?).map Slot.conn

/-- The method `Display::check_errors`: `LATEST_ERROR.lock().take()` — return
the stored error as `Except.error` and clear the cell, or succeed when the
cell is empty. -/
def Display.check_errors (s : St) : Except OsError Unit × St :=
  match s.latestError with
  | some e => (Except.error e, { s with latestError := none })
  | none => (Except.ok (), s)

/-- The method `Display::ignore_error`: unconditionally clear `LATEST_ERROR`. -/
def Display.ignore_error (s : St) : St :=
  { s with latestError := none }

/-- The prune pass at the end of `impl Drop for Display`: keep exactly the
registry entries whose weak reference still upgrades. -/
def prune (s : St) : St :=
  { s with displays := s.displays.filter fun i => (upgrade s i).isSome }

/-- Release of one strong reference to the `Arc<Display>` at slot `i`,
emitting the list of native `XCloseDisplay` handles invoked.  When the count
drops from 1 to 0 the `impl Drop for Display` body runs: `XCloseDisplay`
exactly when `owned` (its failure is not surfaced), followed by the registry
prune pass.  A slot that is already dead is left unchanged (dropping an `Arc`
one does not hold cannot happen in the source). -/
def Display.drop (s : St) (i : ConnId) : St × List Handle :=
  match s.heap[i]? with
  | none => (s, [])
  | some sl =>
      if sl.strong = 0 then (s, [])
      else if sl.strong = 1 then
        let closes := if sl.conn.owned then [sl.conn.display] else []
        (prune (setSlot s i { sl with strong := 0 }), closes)
      else
        (setSlot s i { sl with strong := sl.strong - 1 }, [])

/-- The callback `x_error_callback`, with the native `XGetErrorText` lookup
supplied as an oracle `getErrorText` (in the source it fills a 1024-byte
buffer which is then converted with `to_string_lossy`; the oracle's value is
that converted text).  Returns the `c_int` return value, the new state, and
the forwarding calls made to previously installed handlers, in order. -/
def x_error_callback (getErrorText : Nat → String) (e : XErrorEvent) (s : St) :
    Int × St × List (HandlerId × XErrorEvent) :=
  let error : OsError := OsError.xError
    { description := getErrorText e.error_code
      error_code := e.error_code
      request_code := e.request_code
      minor_code := e.minor_code }
  (0, { s with latestError := some error },
    s.oldHandlers.reverse.map fun h => (h, e))

/-- Oracle for the native calls made by `Display::new`: whether the `XLIB`
capability loaded (`lsyms!(XLIB)` panics otherwise), the previous handler
returned by `XSetErrorHandler`, and the handle returned by
`XOpenDisplay(null)` (`0` models the null pointer). -/
structure NativeEnv where
  xlibLoaded : Bool
  prevHandler : Option HandlerId
  openDisplayResult : Handle
deriving Repr, DecidableEq

/-- The handler-recording step of `Display::new`: the previous handler
returned by `XSetErrorHandler` is pushed onto `OLD_HANDLERS` unless it is
absent or is the crate's own `x_error_callback`. -/
def recordOldHandler (prevHandler : Option HandlerId) (s : St) : St :=
  match prevHandler with
  | some h =>
      if h ≠ xErrorCallbackId then { s with oldHandlers := s.oldHandlers ++ [h] }
      else s
  | none => s

/-- Possible outcomes of `Display::new`: a panic from unwrapping a failed
capability load, an error return, or a fresh owned connection. -/
inductive NewOutcome where
  | panicked
  | failed (err : OsError) (s : St)
  | opened (i : ConnId) (s : St)
deriving Repr, DecidableEq

/-- The constructor `Display::new`: unwrap the `XLIB` capability (panicking
if its load failed), call `XInitThreads`, install `x_error_callback` and
record the previous handler unless it is the callback itself, call
`XOpenDisplay(null)`; on a null handle fail with
`OsError::XNotSupported(XOpenDisplayFailed)`, otherwise allocate an owned
`Display` and append a weak reference to the registry. -/
def Display.new (env : NativeEnv) (s : St) : NewOutcome :=
  if env.xlibLoaded then
    let s1 := recordOldHandler env.prevHandler s
    if env.openDisplayResult = 0 then
      NewOutcome.failed (OsError.xNotSupported XNotSupported.xOpenDisplayFailed) s1
    else
      let i := s1.heap.length
      NewOutcome.opened i
        { s1 with
            heap := s1.heap ++
              [{ conn := { display := env.openDisplayResult, owned := true }, strong := 1 }],
            displays := s1.displays ++ [i] }
  else NewOutcome.panicked

/-- The names of the lazily loaded capability libraries declared in the first
`lazy_static!` block of `src/lib.rs`. -/
inductive CapName where
  | XEXT | XSS | XFT | XT | XMU | XRENDER | XCURSOR | GLX | XINPUT | XINPUT2
  | XRANDR_2_2_0 | XRANDR | XF86VMODE | XTEST_XF86VMODE | XRECORD_XF86VMODE
  | XINERAMA | XLIB | XLIB_XCB
deriving Repr, DecidableEq

/-- The `lsyms!` macro: `crate::$name.as_ref().unwrap()`.  Each capability's
memoized load outcome is `caps n` (`true` = the library opened); `unwrap` on
a failed load panics, modelled by `none`. -/
def lsyms (caps : CapName → Bool) (n : CapName) : Option Unit :=
  if caps n then some () else none

/-- Whether a `Display::new` outcome is a returned `NotSupported` error (the
shape the spec claims for a failed capability access). -/
def isNotSupportedFailure : NewOutcome → Bool
  | NewOutcome.failed (OsError.xNotSupported _) _ => true
  | _ => false

/-- Operations of the crate's public surface that act on the shared state, for
trace-level properties.  `errorCallback` carries the oracle description text
produced by the native `XGetErrorText` lookup. -/
inductive Op where
  | fromRaw (p : Handle)
  | dropRef (i : ConnId)
  | checkErrors
  | ignoreError
  | errorCallback (desc : String) (e : XErrorEvent)
deriving Repr, DecidableEq

/-- One step of the trace semantics: the state transformer of each operation,
together with the native `XCloseDisplay` handles it invokes. -/
def step (s : St) : Op → St × List Handle
  | Op.fromRaw p => ((Display.from_raw s p).2, [])
  | Op.dropRef i => Display.drop s i
  | Op.checkErrors => ((Display.check_errors s).2, [])
  | Op.ignoreError => (Display.ignore_error s, [])
  | Op.errorCallback d e => ((x_error_callback (fun _ => d) e s).2.1, [])

/-- Run a list of operations, concatenating the emitted `XCloseDisplay`
handles. -/
def run (s : St) : List Op → St × List Handle
  | [] => (s, [])
  | op :: ops =>
      let r := step s op
      let r2 := run r.1 ops
      (r2.1, r.2 ++ r2.2)

/-- Whether a slot currently holds a live (strong count positive) owned
connection with handle `p`. -/
def liveOwned (p : Handle) (sl : Slot) : Bool :=
  sl.conn.owned && sl.conn.display == p && decide (0 < sl.strong)

/-- Number of live owned connections with handle `p` in the heap. -/
def liveOwnedCount (p : Handle) (s : St) : Nat :=
  s.heap.countP (liveOwned p)

/-- Number of `XCloseDisplay` invocations on handle `p` in an emitted event
list. -/
def closeCount (p : Handle) (cs : List Handle) : Nat :=
  cs.countP (fun q => q == p)

/-- One access to the `lazy_static!` cell `X11_DISPLAY`: return the cached
value if initialized, otherwise run the initializer, cache its value, and
report one initializer invocation. -/
def lazyAccess {α : Type} (compute : Unit → α) (cell : Option α) :
    α × Option α × Nat :=
  match cell with
  | some v => (v, some v, 0)
  | none => (compute (), some (compute ()), 1)

/-- Repeated accesses to a `lazy_static!` cell: the list of returned values,
the final cell state, and the total number of initializer invocations. -/
def lazyAccessList {α : Type} (compute : Unit → α) :
    Nat → Option α → List α × Option α × Nat
  | 0, cell => ([], cell, 0)
  | n + 1, cell =>
      let r := lazyAccess compute cell
      let r2 := lazyAccessList compute n r.2.1
      (r.1 :: r2.1, r2.2.1, r.2.2 + r2.2.2)

/-- The initializer of the `X11_DISPLAY` singleton: `Display::new()` run
against the native environment and shared state at first access. -/
def X11_DISPLAY_compute (env : NativeEnv) (s : St) : Unit → NewOutcome :=
  fun _ => Display.new env s

/-- Concrete state holding one live owned connection with handle `5`,
registered at entry `0`, used to instantiate theorems at executable inputs. -/
def wOwnedState : St :=
  { heap := [{ conn := { display := 5, owned := true }, strong := 1 }],
    displays := [0], oldHandlers := [], latestError := none }

/-- Concrete empty state used to instantiate theorems at executable inputs. -/
def wEmptyState : St :=
  { heap := [], displays := [], oldHandlers := [], latestError := none }

/-- Concrete native environment in which `XOpenDisplay` returns null. -/
def wEnvFail : NativeEnv :=
  { xlibLoaded := true, prevHandler := none, openDisplayResult := 0 }

/-- Concrete native environment in which `XOpenDisplay` returns handle `7`
and a previous handler `3` was installed. -/
def wEnvOpen : NativeEnv :=
  { xlibLoaded := true, prevHandler := some 3, openDisplayResult := 7 }

/-- Index bound extracted from a successful optional list lookup. -/
theorem getElem_some_lt {α : Type} {l : List α} {i : Nat} {a : α}
    (h : l[i]? = some a) : i < l.length := by
  by_contra hc
  push_neg at hc
  rw [List.getElem?_eq_none hc] at h
  exact Option.noConfusion h

/-- Effect of replacing one list entry on a `countP` count. -/
theorem countP_set {α : Type} (q : α → Bool) :
    ∀ (l : List α) (i : Nat) (a b : α), l[i]? = some a →
      (l.set i b).countP q + (if q a then 1 else 0) =
        l.countP q + (if q b then 1 else 0)
  | [], i, a, b, h => by simp at h
  | x :: l, 0, a, b, h => by
      simp only [List.getElem?_cons_zero, Option.some.injEq] at h
      subst h
      simp [List.countP_cons]
      omega
  | x :: l, i + 1, a, b, h => by
      simp only [List.getElem?_cons_succ] at h
      have ih := countP_set q l i a b h
      simp only [List.set_cons_succ, List.countP_cons]
      omega

/-- A successful registry scan yields a live slot carrying the scanned
handle. -/
theorem findLive_some {s : St} {p : Handle} {i : ConnId}
    (h : findLive s p = some i) :
    ∃ sl, s.heap[i]? = some sl ∧ 0 < sl.strong ∧ sl.conn.display = p := by
  unfold findLive at h
  have hp := List.find?_some h
  unfold upgrade at hp
  cases hh : s.heap[i]? with
  | none => rw [hh] at hp; simp at hp
  | some sl =>
      rw [hh] at hp
      by_cases hs : 0 < sl.strong
      · refine ⟨sl, rfl, hs, ?_⟩
        simp [hs] at hp
        exact hp
      · simp [hs] at hp

/-- Behaviour of `Display::from_raw` in the registry-hit branch: the result is
a reference-counted clone of the registered slot. -/
theorem from_raw_clone {s : St} {p : Handle} {i : ConnId}
    (h : findLive s p = some i) :
    ∃ sl, s.heap[i]? = some sl ∧ 0 < sl.strong ∧ sl.conn.display = p ∧
      Display.from_raw s p = (i, setSlot s i { sl with strong := sl.strong + 1 }) := by
  obtain ⟨sl, hsl, hs, hd⟩ := findLive_some h
  refine ⟨sl, hsl, hs, hd, ?_⟩
  simp only [Display.from_raw, h, hsl]

/-- Behaviour of `Display::from_raw` in the registry-miss branch: a fresh
borrowed wrapper is allocated and registered. -/
theorem from_raw_fresh {s : St} {p : Handle} (h : findLive s p = none) :
    Display.from_raw s p =
      (s.heap.length,
        { s with
            heap := s.heap ++ [{ conn := { display := p, owned := false }, strong := 1 }],
            displays := s.displays ++ [s.heap.length] }) := by
  unfold Display.from_raw
  rw [h]

/-- Releasing a strong reference to a dead or absent slot changes nothing. -/
theorem drop_dead {s : St} {i : ConnId}
    (h : s.heap[i]? = none ∨ ∃ sl, s.heap[i]? = some sl ∧ sl.strong = 0) :
    Display.drop s i = (s, []) := by
  unfold Display.drop
  rcases h with h | ⟨sl, h, h0⟩
  · rw [h]
  · rw [h]
    simp [h0]

/-- Releasing the last strong reference runs the `Drop` body: close exactly
when owned, then prune. -/
theorem drop_last {s : St} {i : ConnId} {sl : Slot}
    (h : s.heap[i]? = some sl) (h1 : sl.strong = 1) :
    Display.drop s i =
      (prune (setSlot s i { sl with strong := 0 }),
        if sl.conn.owned then [sl.conn.display] else []) := by
  unfold Display.drop
  rw [h]
  simp [h1]

/-- Releasing a non-last strong reference only decrements the count. -/
theorem drop_dec {s : St} {i : ConnId} {sl : Slot}
    (h : s.heap[i]? = some sl) (h1 : 2 ≤ sl.strong) :
    Display.drop s i = (setSlot s i { sl with strong := sl.strong - 1 }, []) := by
  unfold Display.drop
  rw [h]
  have h0 : ¬ sl.strong = 0 := by omega
  have h2 : ¬ sl.strong = 1 := by omega
  simp [h0, h2]

/-- Close events of a concatenated trace add up. -/
theorem closeCount_append (p : Handle) (a b : List Handle) :
    closeCount p (a ++ b) = closeCount p a + closeCount p b := by
  simp [closeCount, List.countP_append]

/-- One operation preserves the close accounting for any handle: closes
emitted plus remaining live owned connections is invariant. -/
theorem step_close_invariant (p : Handle) (s : St) (op : Op) :
    closeCount p (step s op).2 + liveOwnedCount p (step s op).1 =
      liveOwnedCount p s := by
  cases op with
  | fromRaw q =>
      show closeCount p [] + liveOwnedCount p (Display.from_raw s q).2 =
        liveOwnedCount p s
      cases hf : findLive s q with
      | some i =>
          obtain ⟨sl, hsl, hs, hd, he⟩ := from_raw_clone hf
          rw [he]
          have hc := countP_set (liveOwned p) s.heap i sl
            { sl with strong := sl.strong + 1 } hsl
          have hq : liveOwned p { sl with strong := sl.strong + 1 } =
              liveOwned p sl := by
            simp [liveOwned, hs]
          rw [hq] at hc
          simp only [closeCount, List.countP_nil, liveOwnedCount, setSlot]
          omega
      | none =>
          rw [from_raw_fresh hf]
          simp [closeCount, liveOwnedCount, List.countP_append,
            List.countP_cons, liveOwned]
  | dropRef i =>
      show closeCount p (Display.drop s i).2 +
        liveOwnedCount p (Display.drop s i).1 = liveOwnedCount p s
      cases hh : s.heap[i]? with
      | none => rw [drop_dead (Or.inl hh)]; simp [closeCount]
      | some sl =>
          by_cases h0 : sl.strong = 0
          · rw [drop_dead (Or.inr ⟨sl, hh, h0⟩)]; simp [closeCount]
          · by_cases h1 : sl.strong = 1
            · rw [drop_last hh h1]
              have hc := countP_set (liveOwned p) s.heap i sl
                { sl with strong := 0 } hh
              have hq0 : liveOwned p { sl with strong := 0 } = false := by
                simp [liveOwned]
              rw [hq0] at hc
              have hheap : (prune (setSlot s i { sl with strong := 0 })).heap =
                  s.heap.set i { sl with strong := 0 } := rfl
              have hclose :
                  closeCount p (if sl.conn.owned then [sl.conn.display] else []) =
                    if liveOwned p sl then 1 else 0 := by
                cases ho : sl.conn.owned with
                | false => simp [liveOwned, ho, closeCount]
                | true =>
                    by_cases hdp : sl.conn.display = p
                    · simp [liveOwned, ho, hdp, closeCount, List.countP_cons, h1]
                    · simp [liveOwned, ho, hdp, closeCount, List.countP_cons]
              simp only [liveOwnedCount, hheap]
              rw [hclose]
              simp only [Bool.false_eq_true, if_false] at hc
              omega
            · have h2 : 2 ≤ sl.strong := by omega
              rw [drop_dec hh h2]
              have hc := countP_set (liveOwned p) s.heap i sl
                { sl with strong := sl.strong - 1 } hh
              have hq : liveOwned p { sl with strong := sl.strong - 1 } =
                  liveOwned p sl := by
                simp only [liveOwned]
                congr 1
                simp
                omega
              rw [hq] at hc
              simp only [closeCount, List.countP_nil, liveOwnedCount, setSlot]
              omega
  | checkErrors =>
      show closeCount p [] + liveOwnedCount p (Display.check_errors s).2 =
        liveOwnedCount p s
      cases hl : s.latestError <;>
        simp [Display.check_errors, hl, closeCount, liveOwnedCount]
  | ignoreError =>
      simp [step, Display.ignore_error, closeCount, liveOwnedCount]
  | errorCallback d e =>
      simp [step, x_error_callback, closeCount, liveOwnedCount]

/-- A whole trace preserves the close accounting. -/
theorem run_close_invariant (p : Handle) : ∀ (ops : List Op) (s : St),
    closeCount p (run s ops).2 + liveOwnedCount p (run s ops).1 =
      liveOwnedCount p s
  | [], s => by simp [run, closeCount]
  | op :: ops, s => by
      have h1 := step_close_invariant p s op
      have h2 := run_close_invariant p ops (step s op).1
      simp only [run]
      rw [closeCount_append]
      omega

/-- Replacing a slot with one wrapping the same `Display` preserves every
lookup's wrapped `Display`. -/
theorem set_preserves_lookup {l : List Slot} {i j : Nat} {sl slj b : Slot}
    (h : l[i]? = some sl) (hj : l[j]? = some slj) (hconn : b.conn = slj.conn) :
    ∃ sl2, (l.set j b)[i]? = some sl2 ∧ sl2.conn = sl.conn := by
  by_cases hij : j = i
  · rw [hij] at hj ⊢
    have hsl : slj = sl := Option.some.inj (hj.symm.trans h)
    refine ⟨b, List.getElem?_set_eq_of_lt _ (getElem_some_lt h), ?_⟩
    rw [hconn, hsl]
  · exact ⟨sl, by rw [List.getElem?_set_ne hij]; exact h, rfl⟩

/-- One operation never changes the `Display` wrapped by an existing slot:
the handle and ownership of every allocation are immutable. -/
theorem step_preserves_conn (s : St) (op : Op) (i : ConnId) (sl : Slot)
    (h : s.heap[i]? = some sl) :
    ∃ sl2, (step s op).1.heap[i]? = some sl2 ∧ sl2.conn = sl.conn := by
  have hlt : i < s.heap.length := getElem_some_lt h
  cases op with
  | fromRaw q =>
      show ∃ sl2, ((Display.from_raw s q).2).heap[i]? = some sl2 ∧ sl2.conn = sl.conn
      cases hf : findLive s q with
      | some j =>
          obtain ⟨slj, hj, hsj, hdj, he⟩ := from_raw_clone hf
          rw [he]
          exact set_preserves_lookup h hj rfl
      | none =>
          rw [from_raw_fresh hf]
          exact ⟨sl, by
            show (s.heap ++ _)[i]? = some sl
            rw [List.getElem?_append_left hlt]
            exact h, rfl⟩
  | dropRef j =>
      show ∃ sl2, ((Display.drop s j).1).heap[i]? = some sl2 ∧ sl2.conn = sl.conn
      cases hh : s.heap[j]? with
      | none => rw [drop_dead (Or.inl hh)]; exact ⟨sl, h, rfl⟩
      | some slj =>
          by_cases h0 : slj.strong = 0
          · rw [drop_dead (Or.inr ⟨slj, hh, h0⟩)]; exact ⟨sl, h, rfl⟩
          · by_cases h1 : slj.strong = 1
            · rw [drop_last hh h1]
              show ∃ sl2, (s.heap.set j { slj with strong := 0 })[i]? = some sl2 ∧
                sl2.conn = sl.conn
              exact set_preserves_lookup h hh rfl
            · have h2 : 2 ≤ slj.strong := by omega
              rw [drop_dec hh h2]
              show ∃ sl2, (s.heap.set j { slj with strong := slj.strong - 1 })[i]? =
                some sl2 ∧ sl2.conn = sl.conn
              exact set_preserves_lookup h hh rfl
  | checkErrors =>
      show ∃ sl2, ((Display.check_errors s).2).heap[i]? = some sl2 ∧ sl2.conn = sl.conn
      cases hl : s.latestError <;> simp [Display.check_errors, hl] <;> exact ⟨sl, h, rfl⟩
  | ignoreError => exact ⟨sl, h, rfl⟩
  | errorCallback d e => exact ⟨sl, h, rfl⟩

/-- A whole trace never changes the `Display` wrapped by an existing slot. -/
theorem run_preserves_conn : ∀ (ops : List Op) (s : St) (i : ConnId) (sl : Slot),
    s.heap[i]? = some sl →
      ∃ sl2, (run s ops).1.heap[i]? = some sl2 ∧ sl2.conn = sl.conn
  | [], s, i, sl, h => ⟨sl, h, rfl⟩
  | op :: ops, s, i, sl, h => by
      obtain ⟨sl1, h1, hc1⟩ := step_preserves_conn s op i sl h
      obtain ⟨sl2, h2, hc2⟩ := run_preserves_conn ops (step s op).1 i sl1 h1
      exact ⟨sl2, h2, hc2.trans hc1⟩

/-- Accesses to an already-initialized `lazy_static!` cell return the cached
value and never rerun the initializer. -/
theorem lazyAccessList_cached {α : Type} (compute : Unit → α) :
    ∀ (n : Nat) (v : α),
      lazyAccessList compute n (some v) = (List.replicate n v, some v, 0)
  | 0, v => rfl
  | n + 1, v => by
      have ih := lazyAccessList_cached compute n v
      simp [lazyAccessList, lazyAccess, ih, List.replicate]

/-- The connection returned by `Display::from_raw` always wraps the requested
handle, in both branches. -/
theorem fromRawConn_display (s : St) (p : Handle) :
    ∃ d, fromRawConn s p = some d ∧ d.display = p := by
  unfold fromRawConn
  cases hf : findLive s p with
  | some i =>
      obtain ⟨sl, hsl, hs, hd, he⟩ := from_raw_clone hf
      rw [he]
      refine ⟨sl.conn, ?_, hd⟩
      show ((s.heap.set i { sl with strong := sl.strong + 1 })[i]?).map Slot.conn =
        some sl.conn
      rw [List.getElem?_set_eq_of_lt _ (getElem_some_lt hsl)]
      rfl
  | none =>
      rw [from_raw_fresh hf]
      refine ⟨{ display := p, owned := false }, ?_, rfl⟩
      show ((s.heap ++ [{ conn := { display := p, owned := false }, strong := 1 }])[s.heap.length]?).map Slot.conn = _
      rw [List.getElem?_concat_length]
      rfl

/-- After dropping the last strong owner of the only live connection carrying
handle `p`, the registry scan for `p` comes up empty. -/
theorem findLive_after_drop_none {s : St} {i : ConnId} {sl : Slot} {p : Handle}
    (hsl : s.heap[i]? = some sl) (h1 : sl.strong = 1)
    (huniq : ∀ j t, s.heap[j]? = some t → t.conn.display = p → 0 < t.strong → j = i) :
    findLive (Display.drop s i).1 p = none := by
  rw [drop_last hsl h1]
  have key : ∀ j, (match upgrade (prune (setSlot s i { sl with strong := 0 })) j with
      | some d => d.display == p
      | none => false) = false := by
    intro j
    have hup : upgrade (prune (setSlot s i { sl with strong := 0 })) j =
        upgrade (setSlot s i { sl with strong := 0 }) j := rfl
    rw [hup]
    unfold upgrade
    cases hj2 : (setSlot s i { sl with strong := 0 }).heap[j]? with
    | none => rfl
    | some t =>
        by_cases hts : 0 < t.strong
        · simp only [if_pos hts]
          show (t.conn.display == p) = false
          by_cases hij : j = i
          · exfalso
            rw [hij] at hj2
            have hset : (setSlot s i { sl with strong := 0 }).heap[i]? =
                some { sl with strong := 0 } := by
              show (s.heap.set i _)[i]? = _
              exact List.getElem?_set_eq_of_lt _ (getElem_some_lt hsl)
            rw [hset] at hj2
            cases Option.some.inj hj2
            simp at hts
          · have hsj : s.heap[j]? = some t := by
              have hne : (setSlot s i { sl with strong := 0 }).heap[j]? = s.heap[j]? := by
                show (s.heap.set i _)[j]? = _
                exact List.getElem?_set_ne fun hei => hij hei.symm
              rw [← hne]
              exact hj2
            by_cases hdp : t.conn.display = p
            · exact absurd (huniq j t hsj hdp hts) hij
            · exact beq_eq_false_iff_ne.mpr hdp
        · simp only [if_neg hts]
  unfold findLive
  rw [List.find?_eq_none]
  intro j hj
  show ¬ (match upgrade (prune (setSlot s i { sl with strong := 0 })) j with
      | some d => d.display == p
      | none => false) = true
  rw [key j]
  exact Bool.false_ne_true

/-- Dropping the last strong owner rebuilds the registry as exactly those
entries whose weak reference still upgrades. -/
theorem drop_prune_mem {s : St} {i : ConnId} {sl : Slot}
    (hsl : s.heap[i]? = some sl) (h1 : sl.strong = 1) :
    ∀ j, j ∈ (Display.drop s i).1.displays ↔
      j ∈ s.displays ∧ (upgrade (Display.drop s i).1 j).isSome = true := by
  intro j
  rw [drop_last hsl h1]
  show j ∈ List.filter _ s.displays ↔ _
  rw [List.mem_filter]
  exact Iff.rfl

/-- Recording the previous error handler touches only `OLD_HANDLERS`. -/
theorem recordOldHandler_preserves (ph : Option HandlerId) (s : St) :
    (recordOldHandler ph s).heap = s.heap ∧
    (recordOldHandler ph s).displays = s.displays ∧
    (recordOldHandler ph s).latestError = s.latestError := by
  cases ph with
  | none => exact ⟨rfl, rfl, rfl⟩
  | some h => by_cases hh : h ≠ xErrorCallbackId <;> simp [recordOldHandler, hh]

/-- Shape of `Display::new` when `XOpenDisplay` returns a null handle. -/
theorem new_failed {env : NativeEnv} (s : St) (hx : env.xlibLoaded = true)
    (h0 : env.openDisplayResult = 0) :
    Display.new env s = NewOutcome.failed
      (OsError.xNotSupported XNotSupported.xOpenDisplayFailed)
      (recordOldHandler env.prevHandler s) := by
  unfold Display.new
  simp [hx, h0]

/-- Shape of `Display::new` when `XOpenDisplay` returns a non-null handle. -/
theorem new_opened {env : NativeEnv} (s : St) (hx : env.xlibLoaded = true)
    (h0 : env.openDisplayResult ≠ 0) :
    Display.new env s = NewOutcome.opened
      (recordOldHandler env.prevHandler s).heap.length
      { recordOldHandler env.prevHandler s with
          heap := (recordOldHandler env.prevHandler s).heap ++
            [{ conn := { display := env.openDisplayResult, owned := true }, strong := 1 }],
          displays := (recordOldHandler env.prevHandler s).displays ++
            [(recordOldHandler env.prevHandler s).heap.length] } := by
  unfold Display.new
  simp [hx, h0]

/-- C10: for every native handle `p` and every registry state, the connection
returned by `Display::from_raw` satisfies `raw(c) = p`, in the branch that
returns an existing live registered connection as well as in the branch that
constructs a fresh borrowed wrapper. -/
theorem claim10_from_raw_returns_handle (s : St) (p : Handle) :
    ∃ d, fromRawConn s p = some d ∧ Display.raw d = p := by
  obtain ⟨d, hd, hdp⟩ := fromRawConn_display s p
  exact ⟨d, hd, hdp⟩

/-- C8: two connections are equal exactly when their native handles are
equal, regardless of ownership or any other field; and any hash function
consistent with the code's equality (the `Hash`/`Eq` contract) is likewise
determined solely by the native handle. -/
theorem claim8_eq_by_handle (a b : Display) (hash : Display → Nat)
    (hhash : ∀ x y, Display.eq x y = true → hash x = hash y) :
    (Display.eq a b = true ↔ a.display = b.display) ∧
    (a.display = b.display → hash a = hash b) := by
  constructor
  · simp [Display.eq]
  · intro hab
    exact hhash a b (by simp [Display.eq, hab])

/-- Witness for C8 at two concrete connections sharing a handle but differing
in ownership, with the handle projection as the hash function. -/
theorem claim8_witness :
    (Display.eq { display := 5, owned := true } { display := 5, owned := false } = true ↔
      ({ display := 5, owned := true } : Display).display =
        ({ display := 5, owned := false } : Display).display) ∧
    (({ display := 5, owned := true } : Display).display =
        ({ display := 5, owned := false } : Display).display →
      Display.display { display := 5, owned := true } =
        Display.display { display := 5, owned := false }) :=
  claim8_eq_by_handle { display := 5, owned := true } { display := 5, owned := false }
    Display.display (fun x y h => by simpa [Display.eq] using h)

/-- C3: `check_errors` atomically takes the `LATEST_ERROR` cell: a stored
error is returned as a failure and the cell is left empty, otherwise the call
succeeds; hence of two consecutive calls with no intervening fault, the
second always succeeds. -/
theorem claim3_check_errors_destructive (s : St) :
    (∀ e, s.latestError = some e →
      (Display.check_errors s).1 = Except.error e ∧
        ((Display.check_errors s).2).latestError = none) ∧
    (s.latestError = none →
      (Display.check_errors s).1 = Except.ok () ∧ (Display.check_errors s).2 = s) ∧
    (Display.check_errors (Display.check_errors s).2).1 = Except.ok () := by
  refine ⟨?_, ?_, ?_⟩
  · intro e he
    simp [Display.check_errors, he]
  · intro he
    simp [Display.check_errors, he]
  · cases he : s.latestError <;> simp [Display.check_errors, he]

/-- Witness for C3 at a concrete state holding a stored error. -/
theorem claim3_witness :
    (Display.check_errors
        { heap := [], displays := [], oldHandlers := [],
          latestError := some (OsError.xNotSupported XNotSupported.xOpenDisplayFailed) }).1 =
      Except.error (OsError.xNotSupported XNotSupported.xOpenDisplayFailed) ∧
    ((Display.check_errors
        { heap := [], displays := [], oldHandlers := [],
          latestError := some (OsError.xNotSupported XNotSupported.xOpenDisplayFailed) }).2).latestError =
      none :=
  (claim3_check_errors_destructive _).1 _ rfl

/-- C2: on every invocation of the native error callback, the structured
error's `error_code`, `request_code` and `minor_code` fields equal the
event's fields verbatim and its description is the native text lookup's
result (non-empty by the hypothesis on that lookup); it is stored into
`LATEST_ERROR`, unconditionally overwriting any previous value; every
recorded previously-installed handler is invoked in reverse registration
order on the raw event; the return value is the fixed `0`; and a subsequent
`check_errors` returns exactly the stored error with those fields. -/
theorem claim2_error_callback (getErrorText : Nat → String) (e : XErrorEvent)
    (s : St) (hdesc : getErrorText e.error_code ≠ "") :
    (x_error_callback getErrorText e s).1 = 0 ∧
    ((x_error_callback getErrorText e s).2.1).latestError =
      some (OsError.xError
        { description := getErrorText e.error_code, error_code := e.error_code,
          request_code := e.request_code, minor_code := e.minor_code }) ∧
    (∃ d, ((x_error_callback getErrorText e s).2.1).latestError =
        some (OsError.xError d) ∧ d.description ≠ "" ∧
        d.error_code = e.error_code ∧ d.request_code = e.request_code ∧
        d.minor_code = e.minor_code) ∧
    (x_error_callback getErrorText e s).2.2 =
      s.oldHandlers.reverse.map (fun h => (h, e)) ∧
    (Display.check_errors (x_error_callback getErrorText e s).2.1).1 =
      Except.error (OsError.xError
        { description := getErrorText e.error_code, error_code := e.error_code,
          request_code := e.request_code, minor_code := e.minor_code }) :=
  ⟨rfl, rfl, ⟨_, rfl, hdesc, rfl, rfl, rfl⟩, rfl, rfl⟩

/-- Witness for C2 at a concrete fault event, a prior unconsumed error in the
cell, and two recorded handlers. -/
theorem claim2_witness :
    ((fun _ : Nat => "BadWindow") (XErrorEvent.error_code ⟨9, 42, 0⟩) ≠ "") ∧
    ((x_error_callback (fun _ => "BadWindow") ⟨9, 42, 0⟩
        { heap := [], displays := [], oldHandlers := [3, 7],
          latestError := some (OsError.xNotSupported XNotSupported.xOpenDisplayFailed) }).1 = 0 ∧
      ((x_error_callback (fun _ => "BadWindow") ⟨9, 42, 0⟩
          { heap := [], displays := [], oldHandlers := [3, 7],
            latestError := some (OsError.xNotSupported XNotSupported.xOpenDisplayFailed) }).2.1).latestError =
        some (OsError.xError
          { description := "BadWindow", error_code := 9, request_code := 42,
            minor_code := 0 }) ∧
      (∃ d, ((x_error_callback (fun _ => "BadWindow") ⟨9, 42, 0⟩
            { heap := [], displays := [], oldHandlers := [3, 7],
              latestError := some (OsError.xNotSupported XNotSupported.xOpenDisplayFailed) }).2.1).latestError =
          some (OsError.xError d) ∧ d.description ≠ "" ∧
          d.error_code = 9 ∧ d.request_code = 42 ∧ d.minor_code = 0) ∧
      (x_error_callback (fun _ => "BadWindow") ⟨9, 42, 0⟩
          { heap := [], displays := [], oldHandlers := [3, 7],
            latestError := some (OsError.xNotSupported XNotSupported.xOpenDisplayFailed) }).2.2 =
        [(7, ⟨9, 42, 0⟩), (3, ⟨9, 42, 0⟩)] ∧
      (Display.check_errors (x_error_callback (fun _ => "BadWindow") ⟨9, 42, 0⟩
          { heap := [], displays := [], oldHandlers := [3, 7],
            latestError := some (OsError.xNotSupported XNotSupported.xOpenDisplayFailed) }).2.1).1 =
        Except.error (OsError.xError
          { description := "BadWindow", error_code := 9, request_code := 42,
            minor_code := 0 })) :=
  ⟨by decide, claim2_error_callback (fun _ => "BadWindow") ⟨9, 42, 0⟩
    { heap := [], displays := [], oldHandlers := [3, 7],
      latestError := some (OsError.xNotSupported XNotSupported.xOpenDisplayFailed) }
    (by decide)⟩

/-- C4: `Display::new` fails with the `NotSupported` connection error
`XOpenDisplayFailed` exactly when the native `XOpenDisplay(null)` call
returns a null handle; on failure no connection is created and nothing is
appended to the registry; otherwise it returns an `Owned` connection
wrapping the returned non-null handle and appends exactly one weak
reference for it to the registry. -/
theorem claim4_open (env : NativeEnv) (s : St) (hx : env.xlibLoaded = true) :
    (isNotSupportedFailure (Display.new env s) = true ↔ env.openDisplayResult = 0) ∧
    (env.openDisplayResult = 0 →
      ∃ s1, Display.new env s =
          NewOutcome.failed (OsError.xNotSupported XNotSupported.xOpenDisplayFailed) s1 ∧
        s1.heap = s.heap ∧ s1.displays = s.displays) ∧
    (env.openDisplayResult ≠ 0 →
      ∃ s1, Display.new env s = NewOutcome.opened s.heap.length s1 ∧
        s1.heap = s.heap ++
          [{ conn := { display := env.openDisplayResult, owned := true }, strong := 1 }] ∧
        s1.displays = s.displays ++ [s.heap.length]) := by
  obtain ⟨hh, hd2, _⟩ := recordOldHandler_preserves env.prevHandler s
  by_cases h0 : env.openDisplayResult = 0
  · rw [new_failed s hx h0]
    refine ⟨by simp [isNotSupportedFailure, h0], ?_, ?_⟩
    · intro _
      exact ⟨_, rfl, hh, hd2⟩
    · intro hne
      exact absurd h0 hne
  · rw [new_opened s hx h0, hh, hd2]
    refine ⟨by simp [isNotSupportedFailure, h0], ?_, ?_⟩
    · intro hz
      exact absurd hz h0
    · intro _
      exact ⟨_, rfl, rfl, rfl⟩

/-- Witness for C4 in both the null-handle environment and the successful
environment, at the empty state. -/
theorem claim4_witness :
    (wEnvFail.xlibLoaded = true ∧ wEnvOpen.xlibLoaded = true) ∧
    (∃ s1, Display.new wEnvFail wEmptyState =
        NewOutcome.failed (OsError.xNotSupported XNotSupported.xOpenDisplayFailed) s1 ∧
      s1.heap = wEmptyState.heap ∧ s1.displays = wEmptyState.displays) ∧
    (∃ s1, Display.new wEnvOpen wEmptyState =
        NewOutcome.opened wEmptyState.heap.length s1 ∧
      s1.heap = wEmptyState.heap ++
        [{ conn := { display := wEnvOpen.openDisplayResult, owned := true }, strong := 1 }] ∧
      s1.displays = wEmptyState.displays ++ [wEmptyState.heap.length]) :=
  ⟨⟨rfl, rfl⟩,
    (claim4_open wEnvFail wEmptyState rfl).2.1 rfl,
    (claim4_open wEnvOpen wEmptyState rfl).2.2 (by decide)⟩

/-- C5 counterexample: with the `XLIB` capability load failed, `Display::new`
panics on the `lsyms!` `unwrap` instead of yielding a `NotSupported` error
scoped to the operation, refuting the claim as stated at this input. -/
theorem claim5_counterexample :
    Display.new { xlibLoaded := false, prevHandler := none, openDisplayResult := 5 }
        wEmptyState = NewOutcome.panicked ∧
    isNotSupportedFailure
      (Display.new { xlibLoaded := false, prevHandler := none, openDisplayResult := 5 }
        wEmptyState) = false ∧
    lsyms (fun _ => false) CapName.XLIB = none := by
  refine ⟨rfl, rfl, rfl⟩

/-- C5 (amended): accessing a capability whose load failed panics via
`unwrap` inside the accessing operation instead of returning a
`NotSupported` error; each capability access depends only on that
capability's own memoized load outcome, so one capability's failure never
prevents use of any other capability. -/
theorem claim5_capability_independence (caps : CapName → Bool) (n : CapName)
    (env : NativeEnv) (s : St) :
    (lsyms caps n = none ↔ caps n = false) ∧
    (∀ caps2 : CapName → Bool, caps2 n = caps n → lsyms caps2 n = lsyms caps n) ∧
    (env.xlibLoaded = false → Display.new env s = NewOutcome.panicked) := by
  refine ⟨?_, ?_, ?_⟩
  · cases h : caps n <;> simp [lsyms, h]
  · intro caps2 h2
    simp [lsyms, h2]
  · intro hx
    simp [Display.new, hx]

/-- Witness for C5 at a capability table in which every load failed. -/
theorem claim5_witness :
    lsyms (fun _ => false) CapName.XLIB = none ∧
    Display.new { xlibLoaded := false, prevHandler := none, openDisplayResult := 5 }
      wEmptyState = NewOutcome.panicked :=
  ⟨((claim5_capability_independence (fun _ => false) CapName.XLIB
      { xlibLoaded := false, prevHandler := none, openDisplayResult := 5 }
      wEmptyState).1).mpr rfl,
    (claim5_capability_independence (fun _ => false) CapName.XLIB
      { xlibLoaded := false, prevHandler := none, openDisplayResult := 5 }
      wEmptyState).2.2 rfl⟩

/-- C7: the `X11_DISPLAY` singleton computes `Display::new` exactly once, on
first access, and caches the outcome for ever after: all of any `n ≥ 1`
accesses return the identical cached outcome with exactly one initializer
invocation, so an initial failure is returned unchanged by every later
access with no further native open attempt. -/
theorem claim7_singleton (env : NativeEnv) (s : St) (n : Nat) (hn : 0 < n) :
    lazyAccessList (X11_DISPLAY_compute env s) n none =
      (List.replicate n (Display.new env s), some (Display.new env s), 1) ∧
    (∀ err s2, Display.new env s = NewOutcome.failed err s2 →
      ∀ v ∈ (lazyAccessList (X11_DISPLAY_compute env s) n none).1,
        v = NewOutcome.failed err s2) := by
  obtain ⟨m, rfl⟩ : ∃ m, n = m + 1 := ⟨n - 1, by omega⟩
  have hmain : lazyAccessList (X11_DISPLAY_compute env s) (m + 1) none =
      (List.replicate (m + 1) (Display.new env s), some (Display.new env s), 1) := by
    have hc := lazyAccessList_cached (X11_DISPLAY_compute env s) m (Display.new env s)
    simp [lazyAccessList, lazyAccess, X11_DISPLAY_compute, hc, List.replicate]
  refine ⟨hmain, ?_⟩
  intro err s2 he v hv
  rw [hmain] at hv
  rw [List.eq_of_mem_replicate hv, he]

/-- Witness for C7 with two accesses in the failing environment. -/
theorem claim7_witness :
    0 < 2 ∧
    (lazyAccessList (X11_DISPLAY_compute wEnvFail wEmptyState) 2 none =
        (List.replicate 2 (Display.new wEnvFail wEmptyState),
          some (Display.new wEnvFail wEmptyState), 1) ∧
      (∀ err s2, Display.new wEnvFail wEmptyState = NewOutcome.failed err s2 →
        ∀ v ∈ (lazyAccessList (X11_DISPLAY_compute wEnvFail wEmptyState) 2 none).1,
          v = NewOutcome.failed err s2)) :=
  ⟨by decide, claim7_singleton wEnvFail wEmptyState 2 (by decide)⟩

/-- C6: dropping the last strong owner invokes the native close exactly when
the connection is `Owned`, then replaces the registry with exactly the
entries whose weak reference still upgrades; when the dropped connection was
the only live one for its handle `p`, the registry scan (`findLive`, the
lookup used by `from_handle`) afterwards no longer yields a live connection
for `p`. -/
theorem claim6_drop_last_owner (s : St) (i : ConnId) (sl : Slot) (p : Handle)
    (hsl : s.heap[i]? = some sl) (h1 : sl.strong = 1)
    (howned : sl.conn.owned = true) (hdisp : sl.conn.display = p)
    (huniq : ∀ j t, s.heap[j]? = some t → t.conn.display = p → 0 < t.strong → j = i) :
    (Display.drop s i).2 = [p] ∧
    (∀ s2 i2 sl2, s2.heap[i2]? = some sl2 → sl2.strong = 1 →
      (Display.drop s2 i2).2 = if sl2.conn.owned then [sl2.conn.display] else []) ∧
    (∀ j, j ∈ (Display.drop s i).1.displays ↔
      j ∈ s.displays ∧ (upgrade (Display.drop s i).1 j).isSome = true) ∧
    findLive (Display.drop s i).1 p = none := by
  refine ⟨?_, ?_, drop_prune_mem hsl h1, findLive_after_drop_none hsl h1 huniq⟩
  · rw [drop_last hsl h1]
    simp [howned, hdisp]
  · intro s2 i2 sl2 h2 h12
    rw [drop_last h2 h12]

/-- Witness for C6 at the state holding a single owned connection with
handle `5`. -/
theorem claim6_witness :
    wOwnedState.heap[0]? = some { conn := { display := 5, owned := true }, strong := 1 } ∧
    ((Display.drop wOwnedState 0).2 = [5] ∧
      (∀ s2 i2 sl2, s2.heap[i2]? = some sl2 → sl2.strong = 1 →
        (Display.drop s2 i2).2 = if sl2.conn.owned then [sl2.conn.display] else []) ∧
      (∀ j, j ∈ (Display.drop wOwnedState 0).1.displays ↔
        j ∈ wOwnedState.displays ∧ (upgrade (Display.drop wOwnedState 0).1 j).isSome = true) ∧
      findLive (Display.drop wOwnedState 0).1 5 = none) :=
  ⟨rfl, claim6_drop_last_owner wOwnedState 0
    { conn := { display := 5, owned := true }, strong := 1 } 5 rfl rfl rfl rfl
    (fun j t hj hd hs => by
      match j, hj with
      | 0, _ => rfl
      | j2 + 1, hj => simp [wOwnedState] at hj)⟩

/-- C9: no operation available on a connection changes its handle field: over
any trace of operations the wrapped handle at any existing slot is
unchanged, so `raw()` returns the same value throughout the connection's
lifetime and its equality class never changes; `Display::new` likewise
leaves every existing slot's handle intact. -/
theorem claim9_handle_immutable (s : St) (ops : List Op) (i : ConnId) (sl : Slot)
    (h : s.heap[i]? = some sl) :
    (∃ sl2, (run s ops).1.heap[i]? = some sl2 ∧
      sl2.conn.display = sl.conn.display ∧
      Display.raw sl2.conn = Display.raw sl.conn ∧
      (∀ d, Display.eq sl2.conn d = Display.eq sl.conn d)) ∧
    (∀ env i2 s3, Display.new env s = NewOutcome.opened i2 s3 →
      ∃ sl2, s3.heap[i]? = some sl2 ∧ sl2.conn.display = sl.conn.display) := by
  constructor
  · obtain ⟨sl2, h2, hc⟩ := run_preserves_conn ops s i sl h
    exact ⟨sl2, h2, by rw [hc], by rw [hc], fun d => by rw [hc]⟩
  · intro env i2 s3 hnew
    by_cases hx : env.xlibLoaded = true
    · by_cases h0 : env.openDisplayResult = 0
      · rw [new_failed s hx h0] at hnew
        cases hnew
      · rw [new_opened s hx h0] at hnew
        obtain ⟨hh, _, _⟩ := recordOldHandler_preserves env.prevHandler s
        cases hnew
        refine ⟨sl, ?_, rfl⟩
        show ((recordOldHandler env.prevHandler s).heap ++ _)[i]? = some sl
        rw [hh, List.getElem?_append_left (getElem_some_lt h)]
        exact h
    · rw [Bool.not_eq_true] at hx
      have hp : Display.new env s = NewOutcome.panicked := by
        simp [Display.new, hx]
      rw [hp] at hnew
      cases hnew

/-- Witness for C9 over a concrete trace acting on the single-owned-connection
state. -/
theorem claim9_witness :
    wOwnedState.heap[0]? = some { conn := { display := 5, owned := true }, strong := 1 } ∧
    ((∃ sl2, (run wOwnedState [Op.fromRaw 5, Op.errorCallback "x" ⟨1, 2, 3⟩,
          Op.checkErrors, Op.dropRef 0]).1.heap[0]? = some sl2 ∧
        sl2.conn.display =
          ({ conn := { display := 5, owned := true }, strong := 1 } : Slot).conn.display ∧
        Display.raw sl2.conn =
          Display.raw ({ conn := { display := 5, owned := true }, strong := 1 } : Slot).conn ∧
        (∀ d, Display.eq sl2.conn d =
          Display.eq ({ conn := { display := 5, owned := true }, strong := 1 } : Slot).conn d)) ∧
      (∀ env i2 s3, Display.new env wOwnedState = NewOutcome.opened i2 s3 →
        ∃ sl2, s3.heap[0]? = some sl2 ∧
          sl2.conn.display =
            ({ conn := { display := 5, owned := true }, strong := 1 } : Slot).conn.display)) :=
  ⟨rfl, claim9_handle_immutable wOwnedState
    [Op.fromRaw 5, Op.errorCallback "x" ⟨1, 2, 3⟩, Op.checkErrors, Op.dropRef 0] 0
    { conn := { display := 5, owned := true }, strong := 1 } rfl⟩

/-- C1: `from_handle` first scans the registry: on a hit it returns the same
live registered connection as a reference-counted clone (strong count
incremented, no new allocation, no new registry entry); on a miss it returns
a fresh `Borrowed` connection with handle `p` and appends one weak registry
entry.  A borrowed connection's destruction never invokes the native close;
hence over any trace of operations starting with at most one live owned
connection for `p` (one strong owner alive), the native close for `p` runs
at most once in total, and any two connections returned by `from_handle(p)`
compare equal. -/
theorem claim1_from_handle_dedup (p : Handle) :
    (∀ s i, findLive s p = some i →
      (Display.from_raw s p).1 = i ∧
      ((Display.from_raw s p).2).displays = s.displays ∧
      ((Display.from_raw s p).2).heap.length = s.heap.length ∧
      ∃ sl, s.heap[i]? = some sl ∧ 0 < sl.strong ∧ sl.conn.display = p ∧
        ((Display.from_raw s p).2).heap[i]? = some { sl with strong := sl.strong + 1 }) ∧
    (∀ s, findLive s p = none →
      (Display.from_raw s p).1 = s.heap.length ∧
      ((Display.from_raw s p).2).heap =
        s.heap ++ [{ conn := { display := p, owned := false }, strong := 1 }] ∧
      ((Display.from_raw s p).2).displays = s.displays ++ [s.heap.length]) ∧
    (∀ s i sl, s.heap[i]? = some sl → sl.conn.owned = false →
      (Display.drop s i).2 = []) ∧
    (∀ s ops, liveOwnedCount p s ≤ 1 → closeCount p (run s ops).2 ≤ 1) ∧
    (∀ s t a b, fromRawConn s p = some a → fromRawConn t p = some b →
      Display.eq a b = true) := by
  refine ⟨?_, ?_, ?_, ?_, ?_⟩
  · intro s i hf
    obtain ⟨sl, hsl, hs, hd, he⟩ := from_raw_clone hf
    rw [he]
    refine ⟨rfl, rfl, ?_, sl, hsl, hs, hd, ?_⟩
    · show (s.heap.set i _).length = s.heap.length
      exact List.length_set s.heap i _
    · show (s.heap.set i _)[i]? = _
      exact List.getElem?_set_eq_of_lt _ (getElem_some_lt hsl)
  · intro s hf
    rw [from_raw_fresh hf]
    exact ⟨rfl, rfl, rfl⟩
  · intro s i sl hsl how
    by_cases h0 : sl.strong = 0
    · rw [drop_dead (Or.inr ⟨sl, hsl, h0⟩)]
    · by_cases h1 : sl.strong = 1
      · rw [drop_last hsl h1]
        simp [how]
      · rw [drop_dec hsl (by omega)]
  · intro s ops hle
    have hinv := run_close_invariant p ops s
    omega
  · intro s t a b ha hb
    obtain ⟨a2, ha2, hpa⟩ := fromRawConn_display s p
    obtain ⟨b2, hb2, hpb⟩ := fromRawConn_display t p
    rw [ha] at ha2
    rw [hb] at hb2
    obtain rfl := Option.some.inj ha2
    obtain rfl := Option.some.inj hb2
    simp [Display.eq, hpa, hpb]

/-- Witness for C1: the registry-hit branch at the single-owned-connection
state, the miss branch at the empty state, and a concrete trace of
`from_handle` and drop operations emitting at most one close for the
handle. -/
theorem claim1_witness :
    findLive wOwnedState 5 = some 0 ∧
    findLive wEmptyState 5 = none ∧
    liveOwnedCount 5 wOwnedState ≤ 1 ∧
    wOwnedState.heap[0]? = some { conn := { display := 5, owned := true }, strong := 1 } ∧
    (Display.from_raw wOwnedState 5).1 = 0 ∧
    ((Display.from_raw wOwnedState 5).2).displays = wOwnedState.displays ∧
    ((Display.from_raw wEmptyState 5).2).displays =
      wEmptyState.displays ++ [wEmptyState.heap.length] ∧
    (Display.drop (Display.from_raw wEmptyState 5).2 0).2 = [] ∧
    closeCount 5
      (run wOwnedState [Op.fromRaw 5, Op.dropRef 0, Op.dropRef 0]).2 ≤ 1 := by
  refine ⟨by decide, by decide, by decide, rfl, ?_, ?_, ?_, ?_, ?_⟩
  · exact ((claim1_from_handle_dedup 5).1 wOwnedState 0 (by decide)).1
  · exact ((claim1_from_handle_dedup 5).1 wOwnedState 0 (by decide)).2.1
  · exact ((claim1_from_handle_dedup 5).2.1 wEmptyState (by decide)).2.2
  · exact (claim1_from_handle_dedup 5).2.2.1 (Display.from_raw wEmptyState 5).2 0
      { conn := { display := 5, owned := false }, strong := 1 } (by decide) rfl
  · exact (claim1_from_handle_dedup 5).2.2.2.1 wOwnedState
      [Op.fromRaw 5, Op.dropRef 0, Op.dropRef 0] (by decide)
